import Mathlib

/-!
Verification development for the movie-review sentiment pipeline in
`src/movie_analyzer_.py` (a BERT encoder with a GRU classification head).

The development shallowly embeds the program's own logic:

* the tokenizer / encoder / criterion are external collaborators, so they
  appear as abstract functions bundled in a `Tokenizer` structure and as
  function parameters (`M`, `L`, `A`, `upd`);
* machine floats are idealised: scalar losses and accuracies accumulated by
  the epoch loops are rationals, and the tensor mathematics of
  `binary_accuracy` (sigmoid, rounding) is carried out over the reals;
* Python's `/`, which raises `ZeroDivisionError` on a zero divisor, is
  embedded as an `Option`-valued division `pydiv`;
* PyTorch's autograd is abstracted to the single observable the source
  manipulates: whether a forward pass records gradient state, which depends
  on the ambient grad mode (`torch.no_grad`) and on the `requires_grad`
  flags of the parameters entering each operation.
-/

/-- The tokenizer adapter (external collaborator, `bert-base-uncased`).
`tokenize` models `tokenizer.tokenize`; `tok_to_id` models the per-token
action of `tokenizer.convert_tokens_to_ids`; the four indices model the
special-token ids queried once at startup (source lines 65-79). -/
structure Tokenizer where
  tokenize : String → List String
  tok_to_id : String → ℕ
  init_token_idx : ℕ
  eos_token_idx : ℕ
  pad_token_idx : ℕ
  unk_token_idx : ℕ

/-- `tokenizer.convert_tokens_to_ids` on a list of tokens maps each token to
its vocabulary id (source lines 56, 101, 425). -/
def convert_tokens_to_ids (tk : Tokenizer) (tokens : List String) : List ℕ :=
  tokens.map tk.tok_to_id

/-- `max_input_length = tokenizer.max_model_input_sizes[...]` (source line 83).
For `bert-base-uncased` this external configuration constant is 512. -/
def max_input_length : ℕ := 512

/-- `tokenize_and_cut` (source lines 87-90): tokenize a sentence and cut the
token list down to `max_input_length - 2` tokens. -/
def tokenize_and_cut (tk : Tokenizer) (sentence : String) : List String :=
  (tk.tokenize sentence).take (max_input_length - 2)

/-- One model parameter as seen through `named_parameters()`: its dotted
name, its `requires_grad` flag, and its (abstracted, scalar) value. -/
structure Param where
  name : String
  requires_grad : Bool
  value : ℚ
deriving DecidableEq

/-- Python's `name.startswith` with prefix `bert` (source line 235), embedded on the
character data of the name. -/
def startsWithBert (n : String) : Bool :=
  decide (n.data.take 4 = "bert".data)

/-- The mutable state of the `nn.Module`: its parameter list and its
`training` mode flag (toggled by `model.train()` / `model.eval()`). -/
structure ModelState where
  params : List Param
  training : Bool
deriving DecidableEq

/-- Whether one forward pass of `BERTGRUSentiment.forward` (source lines
168-192) records autograd state.  The encoder call is wrapped in
`torch.no_grad()` (lines 172-173) and therefore never contributes; the GRU
and linear head ops record a graph exactly when the ambient grad mode is
enabled and some non-encoder parameter has `requires_grad = True`. -/
def forwardCreatesGraph (gradMode : Bool) (ps : List Param) : Bool :=
  gradMode && ps.any fun p => !(startsWithBert p.name) && p.requires_grad

/-- The numeric sigmoid `torch.sigmoid`, idealised over the reals. -/
noncomputable def sigmoid (x : ℝ) : ℝ :=
  1 / (1 + Real.exp (-x))

/-- The indexed id sequence built by `predict_sentiment` (source lines
423-425): tokenize, cut to `max_input_length - 2`, convert to ids, prepend
the begin-marker id and append the end-marker id. -/
def predict_indexed (tk : Tokenizer) (sentence : String) : List ℕ :=
  [tk.init_token_idx] ++
    convert_tokens_to_ids tk ((tk.tokenize sentence).take (max_input_length - 2)) ++
    [tk.eos_token_idx]

/-- Everything observable about one `predict_sentiment` call. -/
structure PredictResult where
  state : ModelState
  indexed : List ℕ
  prob : ℝ
  gradGraphCreated : Bool

/-- `predict_sentiment` (source lines 421-429).  `M` abstracts the numeric
forward pass of the whole model on a single indexed example (the
`unsqueeze(0)` batch of size 1), returning the scalar logit.  The call sets
the model to evaluation mode (`model.eval()`, line 422), builds the indexed
sequence, and returns `sigmoid(logit).item()`.  No `torch.no_grad()` block
appears in `predict_sentiment`, so its forward pass runs under the default
(enabled) ambient grad mode; every operation on this path is total. -/
noncomputable def predict_sentiment (tk : Tokenizer) (M : List ℕ → ℝ)
    (st : ModelState) (sentence : String) : PredictResult :=
  { state := { st with training := false },
    indexed := predict_indexed tk sentence,
    prob := sigmoid (M (predict_indexed tk sentence)),
    gradGraphCreated := forwardCreatesGraph true st.params }

lemma sigmoid_nonneg (x : ℝ) : 0 ≤ sigmoid x := by
  unfold sigmoid
  positivity

lemma sigmoid_le_one (x : ℝ) : sigmoid x ≤ 1 := by
  unfold sigmoid
  rw [div_le_one (by positivity)]
  linarith [Real.exp_pos (-x)]

lemma sigmoid_zero : sigmoid 0 = 1 / 2 := by
  unfold sigmoid
  rw [neg_zero, Real.exp_zero]
  norm_num

/-- Concrete tokenizer whose `tokenize` returns no tokens (the empty
sentence behaviour of the real BERT tokenizer), used as witness input. -/
def tkNone : Tokenizer :=
  { tokenize := fun _ => [],
    tok_to_id := fun _ => 7,
    init_token_idx := 101, eos_token_idx := 102,
    pad_token_idx := 0, unk_token_idx := 100 }

/-- Concrete tokenizer producing 600 tokens for every sentence, exceeding
the 510-token truncation bound, used as witness input. -/
def tkLong : Tokenizer :=
  { tokenize := fun _ => List.replicate 600 "a",
    tok_to_id := fun _ => 7,
    init_token_idx := 101, eos_token_idx := 102,
    pad_token_idx := 0, unk_token_idx := 100 }

/-- Concrete trivial logit function, used as witness input. -/
noncomputable def M0 : List ℕ → ℝ := fun _ => 0

/-- One batch yielded by the `BucketIterator` (external collaborator); it
carries its example count so that theorems can speak about batch-size
weighting, and an opaque payload standing for its padded tensors. -/
structure Batch where
  size : ℕ
  payload : ℕ
deriving DecidableEq

/-- Python's `/` on this code path: raises `ZeroDivisionError` (here `none`)
when the divisor is zero, otherwise exact division. -/
def pydiv (a : ℚ) (n : ℕ) : Option ℚ :=
  if n = 0 then none else some (a / n)

/-- `optimizer.step()` (source line 321) as it acts on parameter values:
Adam was built over `model.parameters()` (line 264), but a parameter whose
`requires_grad` flag is `False` receives no gradient (the encoder runs
under `torch.no_grad()` and autograd skips it), so the step updates only
parameters whose flag is `True`; names and flags are untouched.  `upd`
abstracts the numeric Adam update of one named value. -/
def optimizerStep (upd : String → ℚ → ℚ) (ps : List Param) : List Param :=
  ps.map fun p => if p.requires_grad then { p with value := upd p.name p.value } else p

/-- The body of the `for batch in iterator` loop of `train` (source lines
302-325): compute the batch loss `L` and batch accuracy `A` from the current
parameters, backpropagate and apply one optimizer step (abstracted by
`upd`, which may depend on the current parameters and the batch), and
accumulate the two scalars. -/
def trainStep (L A : List Param → Batch → ℚ) (upd : List Param → Batch → String → ℚ → ℚ)
    (acc : List Param × ℚ × ℚ) (b : Batch) : List Param × ℚ × ℚ :=
  (optimizerStep (upd acc.1 b) acc.1, acc.2.1 + L acc.1 b, acc.2.2 + A acc.1 b)

/-- Everything observable about one `train` call. -/
structure TrainResult where
  state : ModelState
  metrics : Option (ℚ × ℚ)
  optimSteps : ℕ

/-- `train` (source lines 295-328): set the model to training mode
(`model.train()`), iterate over the batches accumulating `epoch_loss` and
`epoch_acc` while stepping the optimizer, and return
`epoch_loss / len(iterator), epoch_acc / len(iterator)`. -/
def train (L A : List Param → Batch → ℚ) (upd : List Param → Batch → String → ℚ → ℚ)
    (st : ModelState) (batches : List Batch) : TrainResult :=
  let r := batches.foldl (trainStep L A upd) (st.params, 0, 0)
  { state := { params := r.1, training := true },
    metrics :=
      match pydiv r.2.1 batches.length, pydiv r.2.2 batches.length with
      | some l, some a => some (l, a)
      | _, _ => none,
    optimSteps := batches.length }

/-- Everything observable about one `evaluate` call. -/
structure EvalResult where
  state : ModelState
  metrics : Option (ℚ × ℚ)
  gradGraph : Bool
  optimSteps : ℕ

/-- `evaluate` (source lines 330-356): set the model to evaluation mode
(`model.eval()`), run the batch loop inside `torch.no_grad()` (line 338,
hence `forwardCreatesGraph false`), accumulate `epoch_loss` and
`epoch_acc`, issue no optimizer step, and return the two quotients by
`len(iterator)`. -/
def evaluate (L A : List Param → Batch → ℚ) (st : ModelState)
    (batches : List Batch) : EvalResult :=
  let r := batches.foldl
    (fun (acc : ℚ × ℚ) b => (acc.1 + L st.params b, acc.2 + A st.params b)) (0, 0)
  { state := { params := st.params, training := false },
    metrics :=
      match pydiv r.1 batches.length, pydiv r.2 batches.length with
      | some l, some a => some (l, a)
      | _, _ => none,
    gradGraph := forwardCreatesGraph false st.params,
    optimSteps := 0 }

/-- The list of `(loss, accuracy)` pairs produced batch by batch during one
`train` epoch, with the parameters evolving by one optimizer step after
each batch — the "per-batch losses/accuracies" of the epoch. -/
def trainBatchMetrics (L A : List Param → Batch → ℚ)
    (upd : List Param → Batch → String → ℚ → ℚ) :
    List Param → List Batch → List (ℚ × ℚ)
  | _, [] => []
  | ps, b :: bs =>
      (L ps b, A ps b) :: trainBatchMetrics L A upd (optimizerStep (upd ps b) ps) bs

/-- The parameter list after running one `train` epoch over the given
batches. -/
def trainParamsAfter (upd : List Param → Batch → String → ℚ → ℚ) :
    List Param → List Batch → List Param
  | ps, [] => ps
  | ps, b :: bs => trainParamsAfter upd (optimizerStep (upd ps b) ps) bs

lemma train_foldl (L A : List Param → Batch → ℚ)
    (upd : List Param → Batch → String → ℚ → ℚ) (bs : List Batch) :
    ∀ (ps : List Param) (l a : ℚ),
      bs.foldl (trainStep L A upd) (ps, l, a) =
        (trainParamsAfter upd ps bs,
         l + ((trainBatchMetrics L A upd ps bs).map Prod.fst).sum,
         a + ((trainBatchMetrics L A upd ps bs).map Prod.snd).sum) := by
  induction bs with
  | nil => intro ps l a; simp [trainParamsAfter, trainBatchMetrics]
  | cons b bs ih =>
      intro ps l a
      simp only [List.foldl_cons, trainStep, trainParamsAfter, trainBatchMetrics,
        List.map_cons, List.sum_cons, ih]
      simp [add_assoc]

lemma eval_foldl (f g : Batch → ℚ) (bs : List Batch) :
    ∀ (l a : ℚ),
      bs.foldl (fun (acc : ℚ × ℚ) b => (acc.1 + f b, acc.2 + g b)) (l, a) =
        (l + (bs.map f).sum, a + (bs.map g).sum) := by
  induction bs with
  | nil => intro l a; simp
  | cons b bs ih =>
      intro l a
      simp only [List.foldl_cons, List.map_cons, List.sum_cons, ih]
      simp [add_assoc]

/-- Concrete batch, loss/accuracy functions and optimizer update, used as
witness inputs. -/
def bW : Batch := ⟨128, 0⟩

/-- Concrete loss function, used as witness input. -/
def LW : List Param → Batch → ℚ := fun _ _ => 3

/-- Concrete accuracy function, used as witness input. -/
def AW : List Param → Batch → ℚ := fun _ _ => 1

/-- Concrete optimizer value update, used as witness input. -/
def updW : List Param → Batch → String → ℚ → ℚ := fun _ _ _ v => v

/-- C1: for every input whose tokenization exceeds `max_input_length - 2`
tokens, `predict_sentiment` truncates so that the indexed sequence is the
begin-marker id, exactly `max_input_length - 2` content token ids, and the
end-marker id — `max_input_length` ids in total — and for every input the
indexed sequence length is at most `max_input_length`; the logit is
computed on exactly this indexed sequence. -/
theorem truncation_exact (tk : Tokenizer) (M : List ℕ → ℝ) (st : ModelState) (s : String)
    (h : max_input_length - 2 < (tk.tokenize s).length) :
    predict_indexed tk s =
      [tk.init_token_idx] ++ convert_tokens_to_ids tk (tokenize_and_cut tk s) ++
        [tk.eos_token_idx]
  ∧ (convert_tokens_to_ids tk (tokenize_and_cut tk s)).length = max_input_length - 2
  ∧ (predict_indexed tk s).length = max_input_length
  ∧ (∀ s' : String, (predict_indexed tk s').length ≤ max_input_length)
  ∧ (predict_sentiment tk M st s).prob = sigmoid (M (predict_indexed tk s)) := by
  refine ⟨rfl, ?_, ?_, ?_, rfl⟩
  · simp only [convert_tokens_to_ids, tokenize_and_cut, List.length_map, List.length_take]
    omega
  · simp only [predict_indexed, convert_tokens_to_ids, List.length_append, List.length_map,
      List.length_take, List.length_cons, List.length_nil]
    unfold max_input_length at h ⊢
    omega
  · intro s'
    simp only [predict_indexed, convert_tokens_to_ids, List.length_append, List.length_map,
      List.length_take, List.length_cons, List.length_nil]
    unfold max_input_length
    omega

/-- C1 witness: a 600-token sentence is truncated to 510 content ids plus
the two special ids, 512 ids in total. -/
theorem truncation_exact_witness :
    max_input_length - 2 < (tkLong.tokenize "x").length
  ∧ (predict_indexed tkLong "x" =
      [tkLong.init_token_idx] ++ convert_tokens_to_ids tkLong (tokenize_and_cut tkLong "x") ++
        [tkLong.eos_token_idx]
    ∧ (convert_tokens_to_ids tkLong (tokenize_and_cut tkLong "x")).length = max_input_length - 2
    ∧ (predict_indexed tkLong "x").length = max_input_length
    ∧ (∀ s' : String, (predict_indexed tkLong s').length ≤ max_input_length)
    ∧ (predict_sentiment tkLong M0 ⟨[], false⟩ "x").prob =
        sigmoid (M0 (predict_indexed tkLong "x"))) :=
  ⟨by norm_num [tkLong, max_input_length],
   truncation_exact tkLong M0 ⟨[], false⟩ "x" (by norm_num [tkLong, max_input_length])⟩

/-- C8: on the empty input string `predict_sentiment` does not raise — the
indexed sequence is exactly the begin-marker id followed by the end-marker
id (length 2) — and the returned value is a probability in `[0, 1]`. -/
theorem predict_empty_ok (tk : Tokenizer) (M : List ℕ → ℝ) (st : ModelState)
    (h : tk.tokenize "" = []) :
    predict_indexed tk "" = [tk.init_token_idx, tk.eos_token_idx]
  ∧ (predict_indexed tk "").length = 2
  ∧ 0 ≤ (predict_sentiment tk M st "").prob
  ∧ (predict_sentiment tk M st "").prob ≤ 1 := by
  refine ⟨?_, ?_, sigmoid_nonneg _, sigmoid_le_one _⟩ <;>
    simp [predict_indexed, convert_tokens_to_ids, h]

/-- C8 witness: a tokenizer yielding no tokens on the empty string produces
the two-id sequence and a probability in `[0, 1]`. -/
theorem predict_empty_ok_witness :
    tkNone.tokenize "" = []
  ∧ (predict_indexed tkNone "" = [tkNone.init_token_idx, tkNone.eos_token_idx]
    ∧ (predict_indexed tkNone "").length = 2
    ∧ 0 ≤ (predict_sentiment tkNone M0 ⟨[], false⟩ "").prob
    ∧ (predict_sentiment tkNone M0 ⟨[], false⟩ "").prob ≤ 1) :=
  ⟨rfl, predict_empty_ok tkNone M0 ⟨[], false⟩ rfl⟩

/-- C10: every `predict_sentiment` call sets the model's training-mode flag
to evaluation mode — it is `false` after the call regardless of its prior
value — while leaving every parameter unchanged. -/
theorem predict_mode_flag (tk : Tokenizer) (M : List ℕ → ℝ) (st : ModelState) (s : String) :
    (predict_sentiment tk M st s).state.training = false
  ∧ (predict_sentiment tk M st s).state.params = st.params :=
  ⟨rfl, rfl⟩

/-- C4 counterexample: as soon as some head parameter requires grad (the
situation established by the freeze loop), an inference call's forward pass
does create autograd state — `predict_sentiment` contains no
`torch.no_grad()` block, so the claim that no gradient state is created by
an inference call is false. -/
theorem predict_nograd_cex :
    (predict_sentiment tkNone M0 ⟨[⟨"out.weight", true, 0⟩], false⟩ "x").gradGraphCreated
      = true := by
  rfl

/-- C4 amended: `predict_sentiment` runs the model in evaluation mode,
applies sigmoid to the logit of the indexed sequence and returns that
scalar without touching any parameter; gradient tracking is disabled only
around the encoder call inside `forward`, so the head portion of the
forward pass records autograd state exactly when some non-encoder parameter
requires grad (under the no-grad mode used by `evaluate`, nothing is
recorded). -/
theorem predict_eval_grad (tk : Tokenizer) (M : List ℕ → ℝ) (st : ModelState) (s : String) :
    (predict_sentiment tk M st s).state.training = false
  ∧ (predict_sentiment tk M st s).state.params = st.params
  ∧ (predict_sentiment tk M st s).prob = sigmoid (M (predict_indexed tk s))
  ∧ (predict_sentiment tk M st s).gradGraphCreated =
      st.params.any (fun p => !(startsWithBert p.name) && p.requires_grad)
  ∧ forwardCreatesGraph false st.params = false := by
  refine ⟨rfl, rfl, rfl, ?_, ?_⟩
  · simp [predict_sentiment, forwardCreatesGraph]
  · simp [forwardCreatesGraph]

/-- C5: `evaluate` leaves every model parameter unchanged, records no
autograd state (its loop runs inside `torch.no_grad()`), and issues no
optimizer step. -/
theorem evaluate_frame (L A : List Param → Batch → ℚ) (st : ModelState)
    (batches : List Batch) :
    (evaluate L A st batches).state.params = st.params
  ∧ (evaluate L A st batches).gradGraph = false
  ∧ (evaluate L A st batches).optimSteps = 0 := by
  refine ⟨rfl, ?_, rfl⟩
  simp [evaluate, forwardCreatesGraph]

/-- C9: on an iterator yielding zero batches both `train` and `evaluate`
reach the division of the accumulated totals by zero, so no mean is
returned (Python raises `ZeroDivisionError`); on any non-empty iterator the
final division is defined. -/
theorem empty_iterator_no_mean (L A : List Param → Batch → ℚ)
    (upd : List Param → Batch → String → ℚ → ℚ) (st : ModelState) :
    (train L A upd st []).metrics = none
  ∧ (evaluate L A st []).metrics = none
  ∧ ∀ batches : List Batch, batches ≠ [] →
      ((train L A upd st batches).metrics).isSome = true
      ∧ ((evaluate L A st batches).metrics).isSome = true := by
  refine ⟨rfl, rfl, ?_⟩
  intro batches hb
  have hn : batches.length ≠ 0 := by simpa [List.length_eq_zero] using hb
  constructor
  · simp [train, pydiv, hn]
  · simp [evaluate, pydiv, hn]

/-- C9 witness: a one-batch iterator is non-empty and both loops return a
mean for it. -/
theorem empty_iterator_no_mean_witness :
    ([bW] : List Batch) ≠ []
  ∧ ((train LW AW updW ⟨[], false⟩ [bW]).metrics).isSome = true
  ∧ ((evaluate LW AW ⟨[], false⟩ [bW]).metrics).isSome = true := by
  refine ⟨by simp, ?_⟩
  exact (empty_iterator_no_mean LW AW updW ⟨[], false⟩).2.2 [bW] (by simp)

/-- C6: on every non-empty batch iterator, `train` returns the unweighted
arithmetic mean of the per-batch losses and accuracies it encountered (sum
divided by the number of batches, with the parameters evolving batch by
batch), and `evaluate` likewise returns the sums of the per-batch losses
and accuracies divided by the number of batches; neither mean is weighted
by the `size` of any batch. -/
theorem epoch_metrics_mean (L A : List Param → Batch → ℚ)
    (upd : List Param → Batch → String → ℚ → ℚ) (st : ModelState)
    (batches : List Batch) (h : batches ≠ []) :
    (train L A upd st batches).metrics =
      some (((trainBatchMetrics L A upd st.params batches).map Prod.fst).sum /
              (batches.length : ℚ),
            ((trainBatchMetrics L A upd st.params batches).map Prod.snd).sum /
              (batches.length : ℚ))
  ∧ (evaluate L A st batches).metrics =
      some ((batches.map (L st.params)).sum / (batches.length : ℚ),
            (batches.map (A st.params)).sum / (batches.length : ℚ)) := by
  have hn : batches.length ≠ 0 := by simpa [List.length_eq_zero] using h
  constructor
  · simp only [train]
    rw [train_foldl L A upd batches st.params 0 0]
    simp [pydiv, hn]
  · simp only [evaluate]
    rw [eval_foldl (L st.params) (A st.params) batches 0 0]
    simp [pydiv, hn]

/-- C6 witness: on a concrete one-batch iterator both loops return the
corresponding unweighted means. -/
theorem epoch_metrics_mean_witness :
    ([bW] : List Batch) ≠ []
  ∧ ((train LW AW updW ⟨[], false⟩ [bW]).metrics =
      some (((trainBatchMetrics LW AW updW ([] : List Param) [bW]).map Prod.fst).sum /
              (([bW] : List Batch).length : ℚ),
            ((trainBatchMetrics LW AW updW ([] : List Param) [bW]).map Prod.snd).sum /
              (([bW] : List Batch).length : ℚ))
    ∧ (evaluate LW AW ⟨[], false⟩ [bW]).metrics =
      some ((([bW] : List Batch).map (LW [])).sum / (([bW] : List Batch).length : ℚ),
            (([bW] : List Batch).map (AW [])).sum / (([bW] : List Batch).length : ℚ))) :=
  ⟨by simp, epoch_metrics_mean LW AW updW ⟨[], false⟩ [bW] (by simp)⟩

/-- `ltBest v best` is the comparison `valid_loss < best_valid_loss` of
source line 399; `none` models the initial the float infinity of line 381, which
every finite loss is below. -/
def ltBest (v : ℚ) : Option ℚ → Bool
  | none => true
  | some b => decide (v < b)

/-- State threaded through the epoch loop (source lines 379-401): the
running best validation loss and, in order, the validation losses at which
`torch.save` of the state dict to `model.pt` overwrote the checkpoint. -/
structure LoopState where
  best : Option ℚ
  writes : List ℚ
deriving DecidableEq

/-- One epoch's checkpoint decision (source lines 399-401): if the new
validation loss is strictly below the running best, update the best and
overwrite the single checkpoint slot. -/
def epochStep (s : LoopState) (v : ℚ) : LoopState :=
  if ltBest v s.best then { best := some v, writes := s.writes ++ [v] } else s

/-- The whole `for epoch in range(N_EPOCHS)` loop, driven by the sequence
of per-epoch validation losses produced by `evaluate`, starting from
`best_valid_loss` at the float infinity and an untouched checkpoint slot. -/
def runEpochs (vs : List ℚ) : LoopState :=
  vs.foldl epochStep ⟨none, []⟩

/-- Invariant of the epoch loop: the recorded checkpoint losses strictly
decrease, and the running best is exactly the loss of the latest write. -/
def goodState (s : LoopState) : Prop :=
  List.Chain' (fun a b : ℚ => b < a) s.writes ∧
    (s.best = none → s.writes = []) ∧
    ∀ q : ℚ, s.best = some q → s.writes.getLast? = some q

lemma epochStep_good (s : LoopState) (v : ℚ) (h : goodState s) :
    goodState (epochStep s v) := by
  obtain ⟨best, writes⟩ := s
  obtain ⟨hc, hnone, hlast⟩ := h
  unfold epochStep
  by_cases hb : ltBest v best = true
  · rw [if_pos hb]
    cases best with
    | none =>
        have hw : writes = [] := hnone rfl
        subst hw
        refine ⟨by simp, by simp, ?_⟩
        intro q hq
        simp only [Option.some.injEq] at hq
        subst hq
        simp
    | some q =>
        have hvq : v < q := by simpa [ltBest] using hb
        have hl : writes.getLast? = some q := hlast q rfl
        refine ⟨?_, by simp, ?_⟩
        · refine List.Chain'.append hc (by simp) ?_
          intro x hx y hy
          rw [hl] at hx
          simp only [Option.mem_def, Option.some.injEq] at hx
          simp only [List.head?_cons, Option.mem_def, Option.some.injEq] at hy
          subst hx
          subst hy
          exact hvq
        · intro q2 hq2
          simp only [Option.some.injEq] at hq2
          subst hq2
          simp
  · rw [if_neg hb]
    exact ⟨hc, hnone, hlast⟩

lemma runEpochs_good (vs : List ℚ) :
    ∀ s : LoopState, goodState s → goodState (vs.foldl epochStep s) := by
  induction vs with
  | nil => intro s h; exact h
  | cons v vs ih => intro s h; exact ih _ (epochStep_good s v h)

/-- C2: across the epoch loop, the checkpoint is overwritten in an epoch
exactly when that epoch's validation loss is strictly below the running
best (initially infinity, below which every finite loss lies), it is
written at most once per epoch, and the validation losses associated with
successive checkpoint writes are strictly decreasing. -/
theorem checkpoint_policy (vs : List ℚ) :
    List.Chain' (fun a b : ℚ => b < a) (runEpochs vs).writes
  ∧ (∀ (s : LoopState) (v : ℚ),
      (epochStep s v).writes = (if ltBest v s.best then s.writes ++ [v] else s.writes)
      ∧ (epochStep s v).writes.length ≤ s.writes.length + 1)
  ∧ (∀ v : ℚ, ltBest v none = true)
  ∧ (∀ v q : ℚ, ltBest v (some q) = decide (v < q)) := by
  refine ⟨?_, ?_, fun _ => rfl, fun _ _ => rfl⟩
  · exact (runEpochs_good vs ⟨none, []⟩ ⟨by simp, fun _ => rfl, by simp⟩).1
  · intro s v
    constructor
    · unfold epochStep
      by_cases hb : ltBest v s.best = true
      · rw [if_pos hb, if_pos hb]
      · rw [if_neg hb, if_neg hb]
    · unfold epochStep
      by_cases hb : ltBest v s.best = true
      · rw [if_pos hb]; simp
      · rw [if_neg hb]; simp

/-- Model construction (source lines 148-166, 212-217): `named_parameters()`
of the freshly constructed `BERTGRUSentiment` lists every parameter —
encoder parameters under names starting with `bert`, head parameters under
`rnn.` and `out.` names — and PyTorch creates and loads all of them with
`requires_grad = True` (the source itself counts 112M trainable parameters
at this point, line 225); `init` gives each named parameter its initial
value. -/
def afterConstruction (names : List String) (init : String → ℚ) : List Param :=
  names.map fun n => { name := n, requires_grad := true, value := init n }

/-- The freeze loops (source lines 234-240): set `requires_grad = False`
for every parameter whose name starts with `bert`; the second loop, over
`model.bert.parameters()`, re-freezes exactly the same parameters. -/
def freezeBert (ps : List Param) : List Param :=
  ps.map fun p => if startsWithBert p.name then { p with requires_grad := false } else p

/-- Any number of training epochs applied to a model state (the epoch loop
at source lines 383-401 runs `train` once per epoch; `evaluate` does not
change parameters). -/
def runTrainEpochs (L A : List Param → Batch → ℚ)
    (upd : List Param → Batch → String → ℚ → ℚ) :
    ModelState → List (List Batch) → ModelState
  | st, [] => st
  | st, bs :: rest => runTrainEpochs L A upd (train L A upd st bs).state rest

/-- The frozen/trainable split: encoder-named parameters have
`requires_grad = False` and still carry their initial values; every other
parameter has `requires_grad = True`. -/
def frozenInv (init : String → ℚ) (ps : List Param) : Prop :=
  ∀ p ∈ ps, p.requires_grad = !(startsWithBert p.name)
    ∧ (startsWithBert p.name = true → p.value = init p.name)

lemma frozenInv_freeze (names : List String) (init : String → ℚ) :
    frozenInv init (freezeBert (afterConstruction names init)) := by
  intro p hp
  simp only [freezeBert, afterConstruction, List.map_map, List.mem_map,
    Function.comp] at hp
  obtain ⟨n, hn, rfl⟩ := hp
  by_cases hb : startsWithBert n = true
  · simp [hb]
  · simp only [Bool.not_eq_true] at hb
    simp [hb]

lemma frozenInv_optimizerStep (init : String → ℚ) (u : String → ℚ → ℚ)
    (ps : List Param) (h : frozenInv init ps) :
    frozenInv init (optimizerStep u ps) := by
  intro q hq
  simp only [optimizerStep, List.mem_map] at hq
  obtain ⟨p, hp, rfl⟩ := hq
  obtain ⟨h1, h2⟩ := h p hp
  by_cases hg : p.requires_grad = true
  · have hb : startsWithBert p.name = false := by
      rw [hg] at h1
      simpa using h1.symm
    simp [hg, hb]
  · simp only [Bool.not_eq_true] at hg
    simp only [hg, Bool.false_eq_true, if_false]
    exact ⟨hg ▸ h1, h2⟩

lemma frozenInv_trainParamsAfter (init : String → ℚ)
    (upd : List Param → Batch → String → ℚ → ℚ) (bs : List Batch) :
    ∀ ps : List Param, frozenInv init ps →
      frozenInv init (trainParamsAfter upd ps bs) := by
  induction bs with
  | nil => intro ps h; exact h
  | cons b bs ih =>
      intro ps h
      exact ih _ (frozenInv_optimizerStep init _ ps h)

lemma train_params_eq (L A : List Param → Batch → ℚ)
    (upd : List Param → Batch → String → ℚ → ℚ) (st : ModelState)
    (bs : List Batch) :
    (train L A upd st bs).state.params = trainParamsAfter upd st.params bs := by
  simp only [train]
  rw [train_foldl L A upd bs st.params 0 0]

lemma frozenInv_runTrainEpochs (init : String → ℚ)
    (L A : List Param → Batch → ℚ) (upd : List Param → Batch → String → ℚ → ℚ)
    (epochs : List (List Batch)) :
    ∀ st : ModelState, frozenInv init st.params →
      frozenInv init (runTrainEpochs L A upd st epochs).params := by
  induction epochs with
  | nil => intro st h; exact h
  | cons bs rest ih =>
      intro st h
      refine ih _ ?_
      rw [train_params_eq]
      exact frozenInv_trainParamsAfter init upd bs st.params h

/-- C3 counterexample: immediately after model construction — before the
freeze loops at lines 234-240 run — an encoder parameter still has
`requires_grad = True`, so the claim that every `bert`-named parameter's
flag is false immediately after construction is false. -/
theorem construction_flag_cex :
    ¬ ∀ p ∈ afterConstruction ["bert.embeddings.word_embeddings.weight"] (fun _ => 0),
        startsWithBert p.name = true → p.requires_grad = false := by
  decide

/-- C3 amended: after the freeze loops that follow construction, and after
any number of training epochs, every parameter whose name starts with
`bert` has `requires_grad = false` and still carries its initial value
(frozen values are never updated by an optimizer step), while every other
(head) parameter has `requires_grad = true`. -/
theorem encoder_frozen (names : List String) (init : String → ℚ)
    (L A : List Param → Batch → ℚ) (upd : List Param → Batch → String → ℚ → ℚ)
    (epochs : List (List Batch)) (b : Bool) (p : Param)
    (hp : p ∈ (runTrainEpochs L A upd
        ⟨freezeBert (afterConstruction names init), b⟩ epochs).params) :
    p.requires_grad = !(startsWithBert p.name)
  ∧ (startsWithBert p.name = true → p.value = init p.name) :=
  frozenInv_runTrainEpochs init L A upd epochs
    ⟨freezeBert (afterConstruction names init), b⟩ (frozenInv_freeze names init) p hp

/-- Concrete initial parameter values, used as witness input. -/
def initW : String → ℚ := fun _ => 2

/-- C3 witness: after freezing and one training epoch over one batch, the
encoder parameter keeps flag `false` and its initial value. -/
theorem encoder_frozen_witness :
    (⟨"bert.w", false, 2⟩ : Param) ∈
      (runTrainEpochs LW AW updW
        ⟨freezeBert (afterConstruction ["bert.w", "out.weight"] initW), true⟩ [[bW]]).params
  ∧ ((⟨"bert.w", false, 2⟩ : Param).requires_grad =
        !(startsWithBert (Param.mk "bert.w" false 2).name)
    ∧ (startsWithBert (Param.mk "bert.w" false 2).name = true →
        (⟨"bert.w", false, 2⟩ : Param).value = initW (Param.mk "bert.w" false 2).name)) :=
  ⟨by decide,
   encoder_frozen ["bert.w", "out.weight"] initW LW AW updW [[bW]] true
     ⟨"bert.w", false, 2⟩ (by decide)⟩

/-- `torch.round`: round half to even (banker's rounding), idealised over
the reals.  On a value whose fractional part is exactly one half,
`2 * round (x / 2)` picks the even neighbour; elsewhere it is ordinary
rounding to the nearest integer. -/
noncomputable def roundHalfEven (x : ℝ) : ℤ :=
  if Int.fract x = 1 / 2 then 2 * round (x / 2) else round x

/-- `binary_accuracy` (source lines 278-293): round the sigmoid of each
logit to the nearest integer (half to even, as `torch.round` does), compare
elementwise with the labels, cast the comparison to 0/1 values, and take
their mean. -/
noncomputable def binary_accuracy (preds y : List ℝ) : ℝ :=
  let rounded_preds := preds.map fun p => ((roundHalfEven (sigmoid p) : ℤ) : ℝ)
  let correct := (rounded_preds.zip y).map fun c => if c.1 = c.2 then (1 : ℝ) else 0
  correct.sum / correct.length

lemma zipMap_eq (f : ℝ → ℝ) (g : ℝ × ℝ → ℝ) :
    ∀ preds y : List ℝ,
      ((preds.map f).zip y).map g = (preds.zip y).map fun c => g (f c.1, c.2)
  | [], _ => by simp
  | _ :: _, [] => by simp
  | p :: ps, q :: qs => by
      simp only [List.map_cons, List.zip_cons_cons]
      rw [zipMap_eq f g ps qs]

lemma fract_half : Int.fract ((1 : ℝ) / 2) = 1 / 2 :=
  Int.fract_eq_self.mpr ⟨by norm_num, by norm_num⟩

lemma roundHalfEven_half : roundHalfEven ((1 : ℝ) / 2) = 0 := by
  unfold roundHalfEven
  rw [if_pos fract_half]
  have h4 : round ((1 : ℝ) / 2 / 2) = 0 := by
    rw [round_eq]
    norm_num [Int.floor_eq_zero_iff, Set.mem_Ico]
  rw [h4]
  ring

/-- C7: `binary_accuracy` equals the mean over examples of the indicator
that the rounded sigmoid of a prediction equals the label; at the decision
boundary (logit 0, sigmoid one half) the rounded prediction is the
deterministic value 0 (`torch.round` rounds half to even), so repeated
evaluations agree. -/
theorem binary_accuracy_mean (preds y : List ℝ) (h : preds.length = y.length) :
    binary_accuracy preds y =
      (((preds.zip y).map fun c =>
          if ((roundHalfEven (sigmoid c.1) : ℤ) : ℝ) = c.2 then (1 : ℝ) else 0).sum) /
        (preds.length : ℝ)
  ∧ roundHalfEven (sigmoid 0) = 0 := by
  constructor
  · simp only [binary_accuracy]
    rw [zipMap_eq]
    rw [List.length_map, List.length_zip, ← h, min_self]
  · rw [sigmoid_zero, roundHalfEven_half]

/-- C7 witness: one boundary logit 0 compared with label 0. -/
theorem binary_accuracy_mean_witness :
    ([(0 : ℝ)]).length = ([(0 : ℝ)]).length
  ∧ (binary_accuracy [(0 : ℝ)] [(0 : ℝ)] =
      ((([(0 : ℝ)].zip [(0 : ℝ)]).map fun c =>
          if ((roundHalfEven (sigmoid c.1) : ℤ) : ℝ) = c.2 then (1 : ℝ) else 0).sum) /
        (([(0 : ℝ)]).length : ℝ)
    ∧ roundHalfEven (sigmoid 0) = 0) :=
  ⟨rfl, binary_accuracy_mean [(0 : ℝ)] [(0 : ℝ)] rfl⟩
